import Mathlib

/-!
Shallow embedding of the recall-augmented academic search pipeline
(`search.py`, `recall.py`, `intent.py`) and proofs of the behavioural
claims about it.

Conventions of the embedding:
* Python dict-shaped API items become the `Item` structure; fields read
  with `.get(key)` / `.get(key, default)` become `Option`-valued fields.
* The remote HTTP API is a parameter: the accumulation loop of
  `search_acemap` receives the successive successful page responses as a
  `List (List Item)`, and `search_with_recall` / `search_all` receive the
  underlying search function as an explicit argument returning
  `Except String _` (an exception corresponds to `.error`).
* Python string operations used by the code (lexicographic `<` on `str`,
  `str.lower`, `str.strip`, substring containment, `re` substitutions)
  are modelled by executable functions over `List Char`; inputs in scope
  are ASCII, where these coincide with Python semantics.
* `list.sort(key=k, reverse=r)` is a stable sort; it is modelled by
  `List.insertionSort` (stable) over the relation on keys induced by a
  boolean comparator, flipped when `reverse` is set.
-/

/-! ### Python string primitives (ASCII) -/

/-- Lexicographic strict comparison of char lists, as Python compares
`str` values (by code point, a proper prefix being smaller). -/
def listLtB : List Char → List Char → Bool
  | [], [] => false
  | [], _ :: _ => true
  | _ :: _, [] => false
  | a :: as, b :: bs => if a < b then true else if b < a then false else listLtB as bs

/-- Lexicographic non-strict comparison of char lists (Python `<=` on `str`). -/
def listLeB : List Char → List Char → Bool
  | [], _ => true
  | _ :: _, [] => false
  | a :: as, b :: bs => if a < b then true else if b < a then false else listLeB as bs

/-- Python `a < b` on strings. -/
def strLtB (a b : String) : Bool := listLtB a.data b.data

/-- Python `a <= b` on strings. -/
def strLeB (a b : String) : Bool := listLeB a.data b.data

/-- Python `int` comparison, used for `cited_by_count` keys. -/
def intLeB (a b : Int) : Bool := decide (a ≤ b)

/-- Python `int` comparison, used for `Counter` counts. -/
def natLeB (a b : Nat) : Bool := decide (a ≤ b)

/-- Python `str.lower()` (ASCII). -/
def pyLower (s : String) : String := ⟨s.data.map Char.toLower⟩

/-- Python `\s` for ASCII text: the whitespace characters recognised by
`str.strip`, `str.split` and the `re` module. -/
def isSpaceChar (c : Char) : Bool :=
  c == ' ' || c == '\t' || c == '\n' || c == '\r' || c == '\x0b' || c == '\x0c'

/-- Python `str.strip()`: remove leading and trailing whitespace. -/
def pyStrip (s : String) : String :=
  ⟨((s.data.dropWhile isSpaceChar).reverse.dropWhile isSpaceChar).reverse⟩

/-- Case-sensitive list prefix test. -/
def isPrefixB : List Char → List Char → Bool
  | [], _ => true
  | _ :: _, [] => false
  | a :: as, b :: bs => a == b && isPrefixB as bs

/-- Case-sensitive list infix (contiguous substring) test. -/
def isInfixCB (pat : List Char) : List Char → Bool
  | [] => isPrefixB pat []
  | c :: rest => isPrefixB pat (c :: rest) || isInfixCB pat rest

/-- Python `pat in s` substring containment (case-sensitive). -/
def containsB (s pat : String) : Bool := isInfixCB pat.data s.data

/-! ### Python `list.sort(key=k, reverse=r)` -/

/-- The ordering relation induced on elements by a boolean comparator on
their keys; `reverse` flips the direction, as `list.sort(..., reverse=True)`
does. -/
def pyKeyRel {α κ : Type} (leB : κ → κ → Bool) (key : α → κ) (reverse : Bool)
    (a b : α) : Prop :=
  cond reverse (leB (key b) (key a) = true) (leB (key a) (key b) = true)

instance {α κ : Type} (leB : κ → κ → Bool) (key : α → κ) (reverse : Bool) :
    DecidableRel (pyKeyRel leB key reverse) := fun a b => by
  cases reverse
  · exact inferInstanceAs (Decidable (leB (key a) (key b) = true))
  · exact inferInstanceAs (Decidable (leB (key b) (key a) = true))

/-- Python stable in-place sort: `lst.sort(key=key, reverse=reverse)` with a
key comparator `leB`.  `List.insertionSort` is a stable sort, so the
modelling preserves the stability guarantee of Python. -/
def pySortByKey {α κ : Type} (leB : κ → κ → Bool) (key : α → κ) (reverse : Bool)
    (l : List α) : List α :=
  List.insertionSort (pyKeyRel leB key reverse) l

/-! ### `search.py`: data model -/

/-- An API result item (a loosely structured JSON dict).  Only the keys the
core reads are modelled; `none` stands for an absent key or a `None` value,
which `dict.get` treats alike.  The `source_concept` field models the
`_source_concept` provenance tag written by `recall.py`. -/
structure Item where
  id : Option String := none
  cited_by_count : Option Int := none
  publication_date : Option String := none
  publication_year : Option Int := none
  display_name : Option String := none
  source_concept : Option String := none
deriving DecidableEq

/-- Python truthiness of an optional string (`None` and the empty string are
falsy). -/
def pyTruthy : Option String → Bool
  | some s => s != ""
  | none => false

/-- The query parameters of one outbound request, from `build_params`
(`search.py` lines 27-34).  A `none` field is a parameter absent from the
dict. -/
structure ReqParams where
  keyword : String
  page : Nat
  size : Nat
  order : Option String
  sort : Option String
deriving DecidableEq

/-- Model of `build_params` (`search.py` lines 27-34): always sends `keyword`,
`page`, `size`; for the `work` endpoint it also sets `order`
unconditionally and `sort` only when the `sort` argument is truthy. -/
def build_params (search_type : String) (keyword : String) (page size : Nat)
    (order : String) (sort : Option String) : ReqParams :=
  { keyword := keyword, page := page, size := size
    order := if search_type == "work" then some order else none
    sort := if search_type == "work" && pyTruthy sort then sort else none }

/-! ### `search.py`: the client-side ranked-search branch of `search_acemap` -/

/-- The sort key `date_key` (`search.py` lines 100-105): the
`publication_date` string when truthy, otherwise a sentinel depending on the
direction.  The code reads `publication_year` into a local but never uses
it; the binding is kept here to mirror that. -/
def date_key (reverse : Bool) (x : Item) : String :=
  match x.publication_date with
  | some d =>
    if d != "" then d
    else
      let _y := x.publication_year
      if reverse then "9999" else "0000"
  | none =>
    let _y := x.publication_year
    if reverse then "9999" else "0000"

/-- The citation sort key of `search.py` line 97: the `cited_by_count`
value, where a missing, `None` or falsy count becomes `0`. -/
def cite_key (x : Item) : Int :=
  match x.cited_by_count with
  | some c => c
  | none => 0

/-- Whether an item carries a truthy `publication_date` (observer used to
state the date-ordering claims). -/
def hasDate (x : Item) : Bool :=
  match x.publication_date with
  | some d => d != ""
  | none => false

/-- The `publication_date` of an item, defaulting to `""` (only consulted
when `hasDate` holds). -/
def dval (x : Item) : String := x.publication_date.getD ""

/-- The `target_count` of the ranked-search branch (`search.py` lines 54-55):
`max(page * size, 200)`, then capped at `500`. -/
def target_count (page size : Nat) : Nat :=
  let t := max (page * size) 200
  if t > 500 then 500 else t

/-- The accumulation `while` loop of the ranked-search branch
(`search.py` lines 62-87).  `pages` is the sequence of successful page
responses the upstream returns for pages `current_page, current_page+1, …`
(an exhausted oracle behaves as a response with no results; a transport
failure would abort the whole branch and produce nothing, so completed runs
are exactly those modelled here).  Returns the accumulated results together
with the parameters of every outbound request issued, in order. -/
def accumLoop (keyword : String) (tc : Nat) (pages : List (List Item))
    (current_page : Nat) (all_results : List Item) : List Item × List ReqParams :=
  if all_results.length < tc then
    let params := build_params "work" keyword current_page 100 "desc" none
    match pages with
    | [] => (all_results, [params])
    | page_results :: rest =>
      if page_results.isEmpty then (all_results, [params])
      else
        let acc := all_results ++ page_results
        if page_results.length < 100 then (acc, [params])
        else
          let next := accumLoop keyword tc rest (current_page + 1) acc
          (next.1, params :: next.2)
  else (all_results, [])

/-- The `search_type == "work" and sort` branch of `search_acemap`
(`search.py` lines 49-115): accumulate up to `target_count` results, sort
them in memory by the requested key, slice the requested page window.
Returns the page slice and the issued request parameters.  (For `page = 0`
the negative slicing of Python would differ; callers pass `page ≥ 1`.) -/
def rankedSearch (keyword : String) (page size : Nat) (order : String)
    (sort : Option String) (pages : List (List Item)) : List Item × List ReqParams :=
  let tc := target_count page size
  let res := accumLoop keyword tc pages 1 []
  let all_results := res.1
  let reverse := order == "desc"
  let sorted_results :=
    if sort == some "cited_by_count" then
      pySortByKey intLeB cite_key reverse all_results
    else if sort == some "publication_date" then
      pySortByKey strLeB (date_key reverse) reverse all_results
    else all_results
  ((sorted_results.drop ((page - 1) * size)).take size, res.2)

/-! ### `recall.py`: knowledge-graph neighbor lookup -/

/-- One knowledge-graph record: a row of the loaded triple table
(`subject, relation, object, paperid`). -/
structure Triple where
  subject : String
  relation : String
  obj : String
  paperid : String
deriving DecidableEq

/-- One step of building `collections.Counter(all_related)`: increment an
existing entry in place, or append a new entry with count 1 (a `Counter` is
an insertion-ordered dict). -/
def counterAdd (acc : List (String × Nat)) (s : String) : List (String × Nat) :=
  if acc.any (fun p => p.1 == s) then
    acc.map (fun p => if p.1 == s then (p.1, p.2 + 1) else p)
  else acc ++ [(s, 1)]

/-- Model of collections.Counter over a list of strings, keeping first-encounter
order of the keys. -/
def counterOf (l : List String) : List (String × Nat) := l.foldl counterAdd []

/-- Model of Counter.most_common with argument `n`: the entries sorted by count, descending and
stable (CPython breaks ties by insertion order), truncated to `n`. -/
def mostCommon (n : Nat) (c : List (String × Nat)) : List (String × Nat) :=
  (pySortByKey natLeB (fun p => p.2) true c).take n

/-- Model of `KGManager.find_related_concepts` (`recall.py` lines 36-84) over a
loaded triple table `df`: exact subject/object matches on the lowercased,
stripped keyword; when they number fewer than `top_k`, also
substring-containment matches; then the `top_k` most frequent candidate
strings, with the (normalized) keyword itself deleted from the counter. -/
def find_related_concepts (df : List Triple) (keyword : String) (top_k : Nat) :
    List String :=
  if df.isEmpty then []
  else
    let kw := pyStrip (pyLower keyword)
    let related_from_sub := (df.filter (fun t => pyLower t.subject == kw)).map (·.obj)
    let related_from_obj := (df.filter (fun t => pyLower t.obj == kw)).map (·.subject)
    let all_related := related_from_sub ++ related_from_obj
    let all_related :=
      if all_related.length < top_k then
        let related_from_sub_c :=
          (df.filter (fun t => containsB (pyLower t.subject) kw)).map (·.obj)
        let related_from_obj_c :=
          (df.filter (fun t => containsB (pyLower t.obj) kw)).map (·.subject)
        all_related ++ (related_from_sub_c ++ related_from_obj_c)
      else all_related
    let counter := counterOf all_related
    let counter := counter.filter (fun p => p.1 != kw)
    (mostCommon top_k counter).map (·.1)

/-! ### `recall.py`: recall-augmented search -/

/-- The JSON body of a successful search response; `search_with_recall`
only ever reads its `results` list. -/
structure SearchResp where
  results : List Item
  meta_count : Nat := 0
deriving DecidableEq

/-- The type of the underlying work-endpoint search call as
`search_with_recall` uses it: arguments keyword, size, sort, order; an
exception is `.error`. -/
def FetchFn : Type := String → Nat → Option String → String → Except String SearchResp

/-- Step 1 of `search_with_recall` (`recall.py` lines 99-103): search the
original keyword with `size=5`; a failure degrades to an empty result
list. -/
def recallOriginal (fetch : FetchFn) (keyword : String) (sort : Option String)
    (order : String) : List Item :=
  match fetch keyword 5 sort order with
  | .ok r => r.results
  | .error _ => []

/-- Steps 2-3 of `search_with_recall` (`recall.py` lines 109-124): for each
related concept, search with `size=2`, tag each returned item with its
source concept, and append; a per-concept failure is skipped. -/
def recallExpanded (fetch : FetchFn) (concepts : List String) (sort : Option String)
    (order : String) : List Item :=
  concepts.foldl
    (fun acc concept =>
      match fetch concept 2 sort order with
      | .ok r => acc ++ r.results.map (fun item => { item with source_concept := some concept })
      | .error _ => acc)
    []

/-- The merge loop of `search_with_recall` (`recall.py` lines 130-136):
append each expanded item whose `id` has not been seen, updating the seen
set. -/
def dedupAppend (seen : List (Option String)) (final_list : List Item) :
    List Item → List Item
  | [] => final_list
  | item :: rest =>
    if item.id ∈ seen then dedupAppend seen final_list rest
    else dedupAppend (item.id :: seen) (final_list ++ [item]) rest

/-- The return value of `search_with_recall`. -/
structure RecallResult where
  original_keyword : String
  related_concepts : List String
  results : List Item
  total_count : Nat
deriving DecidableEq

/-- Model of `search_with_recall` (`recall.py` lines 86-143): search the keyword,
fetch up to 3 related concepts, search each, merge with first-list-wins
de-duplication by `id`.  No re-sort of the merged list is performed. -/
def search_with_recall (fetch : FetchFn) (df : List Triple) (keyword : String)
    (sort : Option String) (order : String) : RecallResult :=
  let original_results := recallOriginal fetch keyword sort order
  let related_concepts := find_related_concepts df keyword 3
  let expanded_results := recallExpanded fetch related_concepts sort order
  let final_list := dedupAppend (original_results.map (·.id)) original_results expanded_results
  { original_keyword := keyword
    related_concepts := related_concepts
    results := final_list
    total_count := final_list.length }

/-! ### `search.py`: aggregate search over the three endpoints -/

/-- One entry of the dict returned by `search_all`: the successful response,
or the `{"error": str(e), "results": []}` stand-in built in the `except`
branch. -/
inductive ChannelEntry where
  | success : SearchResp → ChannelEntry
  | failure : String → List Item → ChannelEntry
deriving DecidableEq

/-- The envelope returned by `search_all`, with one entry per channel. -/
structure AllResults where
  work : ChannelEntry
  author : ChannelEntry
  institution : ChannelEntry
deriving DecidableEq

/-- One `try/except` of `search_all`: a raised exception becomes the
`{"error": message, "results": []}` stand-in. -/
def runChannel (r : Except String SearchResp) : ChannelEntry :=
  match r with
  | .ok v => .success v
  | .error e => .failure e []

/-- The type of `search_acemap` as `search_all` invokes it: arguments
search type, keyword, size, sort, order. -/
def SearchFn : Type := String → String → Nat → Option String → String → Except String SearchResp

/-- Model of `search_all` (`search.py` lines 135-159): the three channels are called
in turn — work with `size=5` and the requested sort, author and institution
with `size=3` and defaults — and each failure is caught per channel. -/
def search_all (searchFn : SearchFn) (keyword : String) (sort : Option String)
    (order : String) : AllResults :=
  { work := runChannel (searchFn "work" keyword 5 sort order)
    author := runChannel (searchFn "author" keyword 3 none "desc")
    institution := runChannel (searchFn "institution" keyword 3 none "desc") }

/-! ### `intent.py`: intent parsing -/

/-- Case-insensitive list prefix match (ASCII), as a literal pattern under
`re.IGNORECASE` matches. -/
def isPrefixCI : List Char → List Char → Bool
  | [], _ => true
  | _ :: _, [] => false
  | a :: as, b :: bs => a.toLower == b.toLower && isPrefixCI as bs

/-- Model of stop-phrase removal: re.sub of the escaped literal `pat` with
the empty replacement under IGNORECASE — remove every non-overlapping
occurrence, scanning left to right, for a non-empty `pat`. -/
def removeSubAllCI (pat : List Char) : List Char → List Char
  | [] => []
  | c :: rest =>
    if pat.length != 0 && isPrefixCI pat (c :: rest) then
      removeSubAllCI pat (rest.drop (pat.length - 1))
    else c :: removeSubAllCI pat rest
termination_by s => s.length
decreasing_by
  · simp only [List.length_cons]
    have : (rest.drop (pat.length - 1)).length = rest.length - (pat.length - 1) := List.length_drop _ _
    omega
  · simp

/-- A regex word character (`\w` over ASCII): letter, digit or underscore. -/
def isWordChar (c : Char) : Bool := c.isAlphanum || c == '_'

def isWordOpt : Option Char → Bool
  | some c => isWordChar c
  | none => false

/-- A `\b` word boundary holds between two (optional) characters when
exactly one side is a word character. -/
def atBoundary (l r : Option Char) : Bool := isWordOpt l != isWordOpt r

/-- Model of whole-word removal: re.sub of the escaped word `w` bracketed
by word-boundary assertions, with the empty replacement under IGNORECASE —
remove every non-overlapping occurrence of the non-empty `w` that sits
between word boundaries; `prev` is the character preceding the scan
position in the original string. -/
def removeWordAllCI (w : List Char) (prev : Option Char) : List Char → List Char
  | [] => []
  | c :: rest =>
    if w.length != 0 && isPrefixCI w (c :: rest)
        && atBoundary prev (some c)
        && atBoundary ((c :: rest).take w.length).getLast? (((c :: rest).drop w.length).head?) then
      removeWordAllCI w ((c :: rest).take w.length).getLast? (rest.drop (w.length - 1))
    else c :: removeWordAllCI w (some c) rest
termination_by s => s.length
decreasing_by
  · simp only [List.length_cons]
    have : (rest.drop (w.length - 1)).length = rest.length - (w.length - 1) := List.length_drop _ _
    omega
  · simp

/-- Model of the punctuation pass: re.sub replacing every character that is
neither a word character nor whitespace by a space. -/
def punctToSpace (s : List Char) : List Char :=
  s.map (fun c => if isWordChar c || isSpaceChar c then c else ' ')

/-- Model of str.split with no separator: split on whitespace runs,
discarding empty fields; `cur` is the reversed current field. -/
def splitWSAux : List Char → List Char → List String
  | [], cur => if cur.isEmpty then [] else [⟨cur.reverse⟩]
  | c :: rest, cur =>
    if isSpaceChar c then
      if cur.isEmpty then splitWSAux rest []
      else (⟨cur.reverse⟩ : String) :: splitWSAux rest []
    else splitWSAux rest (c :: cur)

/-- Model of joining the split fields back with single spaces: collapse
whitespace runs and trim the ends. -/
def normalizeWS (s : String) : String :=
  String.intercalate " " (splitWSAux s.data [])

/-- The keyword lists of `IntentParser.__init__` (`intent.py` lines 11-24). -/
def time_keywords : List String :=
  ["recent", "latest", "new", "newest", "current", "latest research", "recent papers"]

def citation_keywords : List String :=
  ["popular", "cited", "best", "top", "famous", "impactful", "highly cited", "most cited"]

def author_keywords : List String :=
  ["author", "researcher", "scientist", "who wrote", "written by", "people"]

def inst_keywords : List String :=
  ["institution", "university", "lab", "laboratory", "center", "college", "school"]

def stop_phrases : List String :=
  ["research on", "papers about", "results for", "show me", "find", "search for",
   "articles on", "documents about", "information on", "tell me about", "papers on",
   "results of", "list of"]

/-- The parsed intent returned by `IntentParser.parse`. -/
structure Intent where
  original_query : String
  keyword : String
  sort : Option String
  type : Option String
deriving DecidableEq

/-- Model of `IntentParser.parse` (`intent.py` lines 26-95): classify sort and type
intent by substring membership on the lowercased query (citation before
date, author before institution), then cleanse the keyword by removing stop
phrases, then whole-word intent keywords, then punctuation, then collapsing
whitespace; an emptied keyword falls back to the original query. -/
def IntentParser.parse (query : String) : Intent :=
  if query = "" then
    { original_query := "", keyword := "", sort := none, type := none }
  else
    let query_lower := pyLower query
    let sort : Option String :=
      if citation_keywords.any (fun k => containsB query_lower k) then some "citation"
      else if time_keywords.any (fun k => containsB query_lower k) then some "date"
      else none
    let ty : Option String :=
      if author_keywords.any (fun k => containsB query_lower k) then some "author"
      else if inst_keywords.any (fun k => containsB query_lower k) then some "institution"
      else none
    let clean1 := stop_phrases.foldl (fun q p => ⟨removeSubAllCI p.data q.data⟩) query
    let words_to_remove : List String :=
      (if sort = some "date" then time_keywords else [])
      ++ (if sort = some "citation" then citation_keywords else [])
      ++ (if ty = some "author" then author_keywords else [])
      ++ (if ty = some "institution" then inst_keywords else [])
    let clean2 := words_to_remove.foldl (fun q w => ⟨removeWordAllCI w.data none q.data⟩) clean1
    let clean3 : String := ⟨punctToSpace clean2.data⟩
    let kw := normalizeWS clean3
    { original_query := query
      keyword := if kw = "" then query else kw
      sort := sort
      type := ty }

/-! ### Concrete search functions used in witnesses and counterexamples -/

/-- A concrete search function whose institution endpoint raises while the
other endpoints succeed. -/
def instFailFn : SearchFn := fun ty _ _ _ _ =>
  if ty == "institution" then .error "UpstreamError: timeout"
  else .ok { results := [{ id := some "w1" }] }

/-- A search function whose original-keyword response itself contains two
items with the same `id`. -/
def dupIdFetch : FetchFn := fun _ _ _ _ =>
  .ok { results := [{ id := some "w1" }, { id := some "w1" }] }

/-- A search function returning id-distinct lists, for the C4 witness. -/
def distinctIdFetch : FetchFn := fun kw _ _ _ =>
  if kw == "rock" then .ok { results := [{ id := some "a" }, { id := some "b" }] }
  else .ok { results := [{ id := some "a" }, { id := some "c" }] }

/-- A search function under which the top item of the original keyword has
fewer citations than the top item of a neighbor concept (each individual
response is trivially sorted). -/
def ascendFetch : FetchFn := fun kw _ _ _ =>
  if kw == "rock" then .ok { results := [{ id := some "a", cited_by_count := some 5 }] }
  else .ok { results := [{ id := some "b", cited_by_count := some 10 }] }

/-! ### Order facts about the string comparators -/

theorem listLeB_refl : ∀ a : List Char, listLeB a a = true
  | [] => rfl
  | a :: as => by simp [listLeB, listLeB_refl as]

theorem listLeB_total : ∀ a b : List Char, listLeB a b = true ∨ listLeB b a = true
  | [], _ => Or.inl rfl
  | _ :: _, [] => Or.inr rfl
  | a :: as, b :: bs => by
    rcases lt_trichotomy a b with h | h | h
    · left; simp [listLeB, h]
    · subst h
      rcases listLeB_total as bs with ih | ih
      · left; simp [listLeB, ih]
      · right; simp [listLeB, ih]
    · right; simp [listLeB, h]

theorem listLeB_trans :
    ∀ a b c : List Char, listLeB a b = true → listLeB b c = true → listLeB a c = true
  | [], _, _, _, _ => rfl
  | _ :: _, [], _, hab, _ => by simp [listLeB] at hab
  | _ :: _, _ :: _, [], _, hbc => by simp [listLeB] at hbc
  | a :: as, b :: bs, c :: cs, hab, hbc => by
    simp only [listLeB] at hab hbc ⊢
    rcases lt_trichotomy a b with h1 | h1 | h1
    · rcases lt_trichotomy b c with h2 | h2 | h2
      · simp [lt_trans h1 h2]
      · subst h2; simp [h1]
      · simp [h2, not_lt_of_lt h2] at hbc
    · subst h1
      rcases lt_trichotomy a c with h2 | h2 | h2
      · simp [h2]
      · subst h2
        simp [lt_irrefl] at hab hbc ⊢
        exact listLeB_trans _ _ _ hab hbc
      · simp [h2, not_lt_of_lt h2] at hbc
    · simp [h1, not_lt_of_lt h1] at hab

theorem listLtB_not_leB :
    ∀ a b : List Char, listLtB a b = true → listLeB b a = true → False
  | [], [], hlt, _ => by simp [listLtB] at hlt
  | [], _ :: _, _, hle => by simp [listLeB] at hle
  | _ :: _, [], hlt, _ => by simp [listLtB] at hlt
  | a :: as, b :: bs, hlt, hle => by
    simp only [listLtB] at hlt
    simp only [listLeB] at hle
    rcases lt_trichotomy a b with h | h | h
    · simp [h, not_lt_of_lt h] at hle
    · subst h
      simp [lt_irrefl] at hlt hle
      exact listLtB_not_leB _ _ hlt hle
    · simp [h, not_lt_of_lt h] at hlt

theorem strLeB_refl (a : String) : strLeB a a = true := listLeB_refl _

theorem strLeB_total (a b : String) : strLeB a b = true ∨ strLeB b a = true :=
  listLeB_total _ _

theorem strLeB_trans {a b c : String} (h1 : strLeB a b = true) (h2 : strLeB b c = true) :
    strLeB a c = true := listLeB_trans _ _ _ h1 h2

theorem strLtB_not_leB {a b : String} (h1 : strLtB a b = true) (h2 : strLeB b a = true) :
    False := listLtB_not_leB _ _ h1 h2

theorem pyKeyRel_isTotal {α κ : Type} (leB : κ → κ → Bool) (key : α → κ) (reverse : Bool)
    (htot : ∀ a b, leB a b = true ∨ leB b a = true) :
    IsTotal α (pyKeyRel leB key reverse) := by
  constructor
  intro a b
  cases reverse
  · exact htot (key a) (key b)
  · exact htot (key b) (key a)

theorem pyKeyRel_isTrans {α κ : Type} (leB : κ → κ → Bool) (key : α → κ) (reverse : Bool)
    (htr : ∀ a b c, leB a b = true → leB b c = true → leB a c = true) :
    IsTrans α (pyKeyRel leB key reverse) := by
  constructor
  intro a b c hab hbc
  cases reverse
  · exact htr _ _ _ hab hbc
  · exact htr _ _ _ hbc hab

theorem pySortByKey_sorted {α κ : Type} (leB : κ → κ → Bool) (key : α → κ)
    (reverse : Bool) (l : List α)
    (htot : ∀ a b, leB a b = true ∨ leB b a = true)
    (htr : ∀ a b c, leB a b = true → leB b c = true → leB a c = true) :
    (pySortByKey leB key reverse l).Pairwise (pyKeyRel leB key reverse) := by
  haveI := pyKeyRel_isTotal leB key reverse htot
  haveI := pyKeyRel_isTrans leB key reverse htr
  exact List.sorted_insertionSort _ l

theorem pySortByKey_perm {α κ : Type} (leB : κ → κ → Bool) (key : α → κ)
    (reverse : Bool) (l : List α) : (pySortByKey leB key reverse l).Perm l :=
  List.perm_insertionSort _ l

theorem mem_pySortByKey {α κ : Type} {leB : κ → κ → Bool} {key : α → κ}
    {reverse : Bool} {l : List α} {x : α} :
    x ∈ pySortByKey leB key reverse l ↔ x ∈ l :=
  List.mem_insertionSort _

/-- Inserting `a` into `s` with `orderedInsert` passes over only elements
that are strictly earlier in the order; on a class of mutually related
elements (`p`-elements, any two of which satisfy `r`), `filter p` commutes
with the insertion. -/
theorem filter_orderedInsert_of_rel {α : Type}
    (r : α → α → Prop) [DecidableRel r] (p : α → Bool)
    (hp : ∀ x y, p x = true → p y = true → r x y) (a : α) :
    ∀ s : List α,
      (List.orderedInsert r a s).filter p =
        if p a then a :: s.filter p else s.filter p
  | [] => by
    simp only [List.orderedInsert]
    by_cases h : p a <;> simp [h, List.filter]
  | b :: t => by
    simp only [List.orderedInsert]
    by_cases hrab : r a b
    · rw [if_pos hrab]
      by_cases h : p a <;> simp [h, List.filter]
    · rw [if_neg hrab]
      by_cases h : p a = true
      · have hb : p b = false := by
          cases hpb : p b
          · rfl
          · exact absurd (hp a b h hpb) hrab
        simp [List.filter_cons, hb, h, filter_orderedInsert_of_rel r p hp a t]
      · rw [Bool.not_eq_true] at h
        by_cases hb : p b = true <;>
          simp [List.filter_cons, hb, h, filter_orderedInsert_of_rel r p hp a t]

/-- Stability of the modelled Python sort: the subsequence of elements of a
mutually related class is unchanged by sorting (their original relative
order is preserved).  For a key-based relation, any set of elements sharing
one key value forms such a class. -/
theorem filter_insertionSort_of_rel {α : Type}
    (r : α → α → Prop) [DecidableRel r] (p : α → Bool)
    (hp : ∀ x y, p x = true → p y = true → r x y) :
    ∀ l : List α, (List.insertionSort r l).filter p = l.filter p
  | [] => rfl
  | a :: l => by
    simp only [List.insertionSort]
    rw [filter_orderedInsert_of_rel r p hp a, filter_insertionSort_of_rel r p hp l]
    by_cases h : p a <;> simp [h, List.filter_cons]

/-! ### Lemmas about the accumulation loop -/

theorem accumLoop_length_le (keyword : String) (tc : Nat) (htc : tc ≤ 500) :
    ∀ (pages : List (List Item)) (n : Nat) (acc : List Item),
      (∀ p ∈ pages, p.length ≤ 100) → 100 ∣ acc.length → acc.length ≤ 500 →
      (accumLoop keyword tc pages n acc).1.length ≤ 500 := by
  intro pages
  induction pages with
  | nil =>
    intro n acc hp hd hle
    unfold accumLoop
    split
    · exact hle
    · exact hle
  | cons p rest ih =>
    intro n acc hp hd hle
    have hlt : acc.length < tc → acc.length ≤ 400 := by
      intro h
      obtain ⟨k, hk⟩ := hd
      omega
    unfold accumLoop
    split
    · next hcond =>
      dsimp only
      split
      · exact hle
      · split
        · next hshort =>
          simp only [List.length_append]
          have := hp p (by simp)
          have := hlt hcond
          omega
        · next hshort =>
          have hfull : p.length = 100 := by
            have := hp p (by simp)
            omega
          refine ih (n + 1) (acc ++ p) (fun q hq => hp q (by simp [hq])) ?_ ?_
          · simp only [List.length_append, hfull]
            exact (Nat.dvd_add_right hd).mpr ⟨1, rfl⟩
          · simp only [List.length_append, hfull]
            have := hlt hcond
            omega
    · exact hle

theorem accumLoop_mem (keyword : String) (tc : Nat) :
    ∀ (pages : List (List Item)) (n : Nat) (acc : List Item) (x : Item),
      x ∈ (accumLoop keyword tc pages n acc).1 → x ∈ acc ∨ ∃ p ∈ pages, x ∈ p := by
  intro pages
  induction pages with
  | nil =>
    intro n acc x hx
    unfold accumLoop at hx
    split at hx
    · exact Or.inl hx
    · exact Or.inl hx
  | cons p rest ih =>
    intro n acc x hx
    unfold accumLoop at hx
    split at hx
    · dsimp only at hx
      split at hx
      · exact Or.inl hx
      · split at hx
        · rcases List.mem_append.1 hx with h | h
          · exact Or.inl h
          · exact Or.inr ⟨p, by simp, h⟩
        · rcases ih (n + 1) (acc ++ p) x hx with h | ⟨q, hq, hxq⟩
          · rcases List.mem_append.1 h with h | h
            · exact Or.inl h
            · exact Or.inr ⟨p, by simp, h⟩
          · exact Or.inr ⟨q, by simp [hq], hxq⟩
    · exact Or.inl hx

theorem accumLoop_params (keyword : String) (tc : Nat) :
    ∀ (pages : List (List Item)) (n : Nat) (acc : List Item) (q : ReqParams),
      q ∈ (accumLoop keyword tc pages n acc).2 →
      q.sort = none ∧ q.order = some "desc" ∧ q.size = 100 := by
  intro pages
  have hbp : ∀ m, (build_params "work" keyword m 100 "desc" none).sort = none
      ∧ (build_params "work" keyword m 100 "desc" none).order = some "desc"
      ∧ (build_params "work" keyword m 100 "desc" none).size = 100 := by
    intro m
    refine ⟨?_, rfl, rfl⟩
    simp [build_params, pyTruthy]
  induction pages with
  | nil =>
    intro n acc q hq
    unfold accumLoop at hq
    split at hq
    · simp only [List.mem_singleton] at hq
      exact hq ▸ hbp n
    · simp at hq
  | cons p rest ih =>
    intro n acc q hq
    unfold accumLoop at hq
    split at hq
    · dsimp only at hq
      split at hq
      · simp only [List.mem_singleton] at hq
        exact hq ▸ hbp n
      · split at hq
        · simp only [List.mem_singleton] at hq
          exact hq ▸ hbp n
        · rcases List.mem_cons.1 hq with h | h
          · exact h ▸ hbp n
          · exact ih (n + 1) (acc ++ p) q h
    · simp at hq

/-! ### Claim C2 -/

/-- C2: in the client-side ranker (the sort branch of `search_acemap` for
`type=work`), for every requested page and page size the accumulation
target is `max(page*pageSize, 200)` capped at `500`, and — provided each
upstream page returns at most the requested page size of 100 items — the
accumulated sample never exceeds 500 items. -/
theorem ranker_target_and_accumulation_bound
    (keyword : String) (page size : Nat) (pages : List (List Item))
    (hp : ∀ p ∈ pages, p.length ≤ 100) :
    target_count page size = min (max (page * size) 200) 500
    ∧ (accumLoop keyword (target_count page size) pages 1 []).1.length ≤ 500 := by
  constructor
  · unfold target_count
    dsimp only
    split <;> omega
  · refine accumLoop_length_le keyword _ ?_ pages 1 [] hp ⟨0, rfl⟩ (by simp)
    unfold target_count
    dsimp only
    split <;> omega

/-- Witness for C2 at a concrete input. -/
theorem ranker_target_and_accumulation_bound_witness :
    (∀ p ∈ ([[({ id := some "w1" } : Item)]] : List (List Item)), p.length ≤ 100)
    ∧ (target_count 1 10 = min (max (1 * 10) 200) 500
      ∧ (accumLoop "rock" (target_count 1 10) [[({ id := some "w1" } : Item)]] 1 []).1.length ≤ 500) :=
  have hp : ∀ p ∈ ([[({ id := some "w1" } : Item)]] : List (List Item)), p.length ≤ 100 := by
    decide
  ⟨hp, ranker_target_and_accumulation_bound "rock" 1 10 _ hp⟩

/-! ### Claim C3 -/

/-- C3 counterexample: at a concrete ranked-search call, it is not the case
that both the `sort` and the `order` parameter are omitted from every
outbound request of the accumulation loop — the single request issued
carries `order = "desc"`. -/
theorem ranker_omits_order_counterexample :
    ¬ (∀ q ∈ (rankedSearch "rock" 1 10 "desc" (some "publication_date") []).2,
        q.order = none ∧ q.sort = none) := by
  decide

/-- C3 amended: every outbound request of the accumulation loop omits the
server-side `sort` parameter, but always carries `order = "desc"` (set
unconditionally by `build_params` for the work endpoint) and `size = 100`. -/
theorem ranker_requests_omit_sort_only
    (keyword : String) (page size : Nat) (order : String) (sort : Option String)
    (pages : List (List Item)) (q : ReqParams)
    (hq : q ∈ (rankedSearch keyword page size order sort pages).2) :
    q.sort = none ∧ q.order = some "desc" ∧ q.size = 100 := by
  have : (rankedSearch keyword page size order sort pages).2
      = (accumLoop keyword (target_count page size) pages 1 []).2 := rfl
  rw [this] at hq
  exact accumLoop_params keyword _ pages 1 [] q hq

/-- Witness for C3 (amended) at a concrete input. -/
theorem ranker_requests_omit_sort_only_witness :
    (({ keyword := "rock", page := 1, size := 100, order := some "desc", sort := none } : ReqParams)
        ∈ (rankedSearch "rock" 1 10 "desc" (some "publication_date") []).2)
    ∧ (({ keyword := "rock", page := 1, size := 100, order := some "desc", sort := none } : ReqParams).sort = none
      ∧ ({ keyword := "rock", page := 1, size := 100, order := some "desc", sort := none } : ReqParams).order = some "desc"
      ∧ ({ keyword := "rock", page := 1, size := 100, order := some "desc", sort := none } : ReqParams).size = 100) :=
  have hm : ({ keyword := "rock", page := 1, size := 100, order := some "desc", sort := none } : ReqParams)
      ∈ (rankedSearch "rock" 1 10 "desc" (some "publication_date") []).2 := by decide
  ⟨hm, ranker_requests_omit_sort_only "rock" 1 10 "desc" (some "publication_date") [] _ hm⟩

/-! ### Claim C7 -/

/-- C7: on the table holding exactly the triples
`(rock, relates_to, plate tectonics, p1)` and `(mineral, relates_to, rock, p2)`,
`find_related_concepts "rock" 3` returns exactly
`["plate tectonics", "mineral"]` (frequency order, ties by first
encounter); and on an empty table it returns the empty list for every
keyword. -/
theorem find_related_concepts_scenario :
    find_related_concepts
        [{ subject := "rock", relation := "relates_to", obj := "plate tectonics", paperid := "p1" },
         { subject := "mineral", relation := "relates_to", obj := "rock", paperid := "p2" }]
        "rock" 3
      = ["plate tectonics", "mineral"]
    ∧ ∀ (keyword : String) (top_k : Nat), find_related_concepts [] keyword top_k = [] :=
  ⟨by decide, fun _ _ => rfl⟩

/-! ### Claim C9 -/

/-- C9: `search_all` always returns an envelope with all three channels;
a channel whose underlying search raises is replaced by the
error stand-in holding the message and an empty result list, and the
response of a non-failing channel is passed through unaffected,
independent of the outcomes of the other channels. -/
theorem searchAll_isolates_channel_failures
    (searchFn : SearchFn) (keyword : String) (sort : Option String) (order : String) :
    (∀ m, searchFn "work" keyword 5 sort order = .error m →
      (search_all searchFn keyword sort order).work = .failure m [])
    ∧ (∀ r, searchFn "work" keyword 5 sort order = .ok r →
      (search_all searchFn keyword sort order).work = .success r)
    ∧ (∀ m, searchFn "author" keyword 3 none "desc" = .error m →
      (search_all searchFn keyword sort order).author = .failure m [])
    ∧ (∀ r, searchFn "author" keyword 3 none "desc" = .ok r →
      (search_all searchFn keyword sort order).author = .success r)
    ∧ (∀ m, searchFn "institution" keyword 3 none "desc" = .error m →
      (search_all searchFn keyword sort order).institution = .failure m [])
    ∧ (∀ r, searchFn "institution" keyword 3 none "desc" = .ok r →
      (search_all searchFn keyword sort order).institution = .success r) := by
  refine ⟨fun m h => ?_, fun r h => ?_, fun m h => ?_, fun r h => ?_, fun m h => ?_, fun r h => ?_⟩
  all_goals simp [search_all, runChannel, h]

/-- Witness for C9 at a concrete input: the institution channel carries the
error stand-in while work and author carry their untouched results. -/
theorem searchAll_isolates_channel_failures_witness :
    (search_all instFailFn "rock" none "desc").institution
        = .failure "UpstreamError: timeout" []
    ∧ (search_all instFailFn "rock" none "desc").work
        = .success { results := [{ id := some "w1" }] }
    ∧ (search_all instFailFn "rock" none "desc").author
        = .success { results := [{ id := some "w1" }] } :=
  ⟨(searchAll_isolates_channel_failures instFailFn "rock" none "desc").2.2.2.2.1 _ rfl,
   (searchAll_isolates_channel_failures instFailFn "rock" none "desc").2.1 _ rfl,
   (searchAll_isolates_channel_failures instFailFn "rock" none "desc").2.2.2.1 _ rfl⟩

/-! ### Claim C8 -/

theorem ite_fallback_ne (s q : String) (h : q ≠ "") :
    (if s = "" then q else s) ≠ "" := by
  split
  · exact h
  · assumption

/-- C8: for every non-empty query, `IntentParser.parse` returns a non-empty
keyword — if the cleansing pipeline empties the keyword, the parser falls
back to the original untouched query. -/
theorem parse_keyword_nonempty (query : String) (h : query ≠ "") :
    (IntentParser.parse query).keyword ≠ "" := by
  unfold IntentParser.parse
  rw [if_neg h]
  dsimp only
  exact ite_fallback_ne _ query h

/-- Witness for C8 at a concrete input. -/
theorem parse_keyword_nonempty_witness :
    ("recent papers" ≠ "") ∧ (IntentParser.parse "recent papers").keyword ≠ "" :=
  ⟨by decide, parse_keyword_nonempty "recent papers" (by decide)⟩

/-! ### Claim C6 -/

theorem mostCommon_length_le (n : Nat) (c : List (String × Nat)) :
    (mostCommon n c).length ≤ n := by
  unfold mostCommon
  rw [List.length_take]
  exact min_le_left _ _

theorem mem_mostCommon {n : Nat} {c : List (String × Nat)} {p : String × Nat}
    (h : p ∈ mostCommon n c) : p ∈ c := by
  unfold mostCommon at h
  exact mem_pySortByKey.1 (List.mem_of_mem_take h)

/-- C6 counterexample: `find_related_concepts` can return the query concept
itself.  With the single triple `(rocky, rel, Rock, p1)` and the query
`"Rock"`, the counter deletion only removes the lowercased key `"rock"`,
so the original-cased candidate `"Rock"` — equal to the query — survives
into the output. -/
theorem neighbors_return_query_counterexample :
    "Rock" ∈ find_related_concepts
        [{ subject := "rocky", relation := "rel", obj := "Rock", paperid := "p1" }]
        "Rock" 3 := by
  decide

/-- C6 amended: the output length never exceeds `top_k`, and the query is
excluded only in its normalized form — the lowercased, stripped keyword
never appears in the output (hence a query that is already lowercase and
stripped never appears; a differently-cased table entry equal to the raw
query still can). -/
theorem neighbors_length_and_normalized_exclusion
    (df : List Triple) (keyword : String) (top_k : Nat) (_h : 1 ≤ top_k) :
    (find_related_concepts df keyword top_k).length ≤ top_k
    ∧ pyStrip (pyLower keyword) ∉ find_related_concepts df keyword top_k := by
  unfold find_related_concepts
  dsimp only
  split
  · exact ⟨by simp, by simp⟩
  · constructor
    · rw [List.length_map]
      exact mostCommon_length_le _ _
    · intro hmem
      rw [List.mem_map] at hmem
      obtain ⟨p, hp, hpk⟩ := hmem
      have hc := mem_mostCommon hp
      rw [List.mem_filter] at hc
      have hne := hc.2
      rw [bne_iff_ne] at hne
      exact hne hpk

/-- Witness for C6 (amended) at a concrete input. -/
theorem neighbors_length_and_normalized_exclusion_witness :
    (1 ≤ 3)
    ∧ ((find_related_concepts
          [{ subject := "rock", relation := "relates_to", obj := "plate tectonics", paperid := "p1" }]
          "rock" 3).length ≤ 3
      ∧ pyStrip (pyLower "rock") ∉ find_related_concepts
          [{ subject := "rock", relation := "relates_to", obj := "plate tectonics", paperid := "p1" }]
          "rock" 3) :=
  ⟨by decide,
   neighbors_length_and_normalized_exclusion
     [{ subject := "rock", relation := "relates_to", obj := "plate tectonics", paperid := "p1" }]
     "rock" 3 (by decide)⟩

/-! ### Lemmas about the merge loop of `search_with_recall` -/

theorem dedupAppend_extends :
    ∀ (xs : List Item) (seen : List (Option String)) (acc : List Item),
      acc <+: dedupAppend seen acc xs
  | [], _, _ => List.prefix_refl _
  | x :: xs, seen, acc => by
    unfold dedupAppend
    split
    · exact dedupAppend_extends xs seen acc
    · exact (acc.prefix_append [x]).trans (dedupAppend_extends xs _ _)

theorem dedupAppend_drop_sublist :
    ∀ (xs : List Item) (seen : List (Option String)) (acc : List Item),
      ((dedupAppend seen acc xs).drop acc.length).Sublist xs
  | [], _, acc => by
    unfold dedupAppend
    simp
  | x :: xs, seen, acc => by
    unfold dedupAppend
    split
    · exact (dedupAppend_drop_sublist xs seen acc).trans (List.sublist_cons_self x xs)
    · obtain ⟨t, ht⟩ := dedupAppend_extends xs (x.id :: seen) (acc ++ [x])
      have hx : dedupAppend (x.id :: seen) (acc ++ [x]) xs = acc ++ (x :: t) := by
        rw [← ht]
        simp
      have hd : (dedupAppend (x.id :: seen) (acc ++ [x]) xs).drop acc.length = x :: t := by
        rw [hx]
        exact List.drop_left acc (x :: t)
      have ht2 : (dedupAppend (x.id :: seen) (acc ++ [x]) xs).drop (acc ++ [x]).length = t := by
        rw [← ht]
        exact List.drop_left _ t
      have hsub : t.Sublist xs := ht2 ▸ dedupAppend_drop_sublist xs (x.id :: seen) (acc ++ [x])
      rw [hd]
      exact hsub.cons₂ x

theorem dedupAppend_nodup :
    ∀ (xs : List Item) (seen : List (Option String)) (acc : List Item),
      (acc.map (·.id)).Nodup → (∀ i ∈ acc.map (·.id), i ∈ seen) →
      ((dedupAppend seen acc xs).map (·.id)).Nodup
  | [], _, _, hnd, _ => hnd
  | x :: xs, seen, acc, hnd, hsub => by
    unfold dedupAppend
    split
    · exact dedupAppend_nodup xs seen acc hnd hsub
    · next hxid =>
      refine dedupAppend_nodup xs (x.id :: seen) (acc ++ [x]) ?_ ?_
      · rw [List.map_append]
        rw [List.nodup_append]
        refine ⟨hnd, by simp, ?_⟩
        intro a ha hb
        simp only [List.map_cons, List.map_nil, List.mem_singleton] at hb
        exact hxid (hb ▸ hsub a ha)
      · intro i hi
        rw [List.map_append] at hi
        rcases List.mem_append.1 hi with h | h
        · exact List.mem_cons_of_mem _ (hsub i h)
        · simp only [List.map_cons, List.map_nil, List.mem_singleton] at h
          exact h ▸ List.mem_cons_self _ _

/-! ### Claim C4 -/

/-- C4 counterexample: the merged output of `search_with_recall` can
contain two items with equal `id` values — the merge only de-duplicates
the neighbor-sourced items against the seen set, never the
original-keyword list against itself. -/
theorem recall_merge_dup_id_counterexample :
    ¬ (((search_with_recall dupIdFetch [] "rock" none "desc").results.map (·.id)).Nodup) := by
  decide

/-- C4 amended: provided the original-keyword result list itself carries
pairwise-distinct `id` values, the merged list of `search_with_recall` has
pairwise-distinct `id` values (first-seen wins), and the original-keyword
items form its prefix — every original item precedes every neighbor-sourced
item. -/
theorem recall_merge_dedup
    (fetch : FetchFn) (df : List Triple) (keyword : String)
    (sort : Option String) (order : String)
    (h : ((recallOriginal fetch keyword sort order).map (·.id)).Nodup) :
    (((search_with_recall fetch df keyword sort order).results.map (·.id)).Nodup)
    ∧ recallOriginal fetch keyword sort order
        <+: (search_with_recall fetch df keyword sort order).results :=
  ⟨dedupAppend_nodup _ _ _ h (fun _ hi => hi), dedupAppend_extends _ _ _⟩

/-- Witness for C4 (amended) at a concrete input where a neighbor concept
contributes one duplicate and one fresh item. -/
theorem recall_merge_dedup_witness :
    ((recallOriginal distinctIdFetch "rock" (some "cited_by_count") "desc").map (·.id)).Nodup
    ∧ ((((search_with_recall distinctIdFetch
          [{ subject := "rock", relation := "relates_to", obj := "plate tectonics", paperid := "p1" }]
          "rock" (some "cited_by_count") "desc").results.map (·.id)).Nodup)
      ∧ recallOriginal distinctIdFetch "rock" (some "cited_by_count") "desc"
          <+: (search_with_recall distinctIdFetch
            [{ subject := "rock", relation := "relates_to", obj := "plate tectonics", paperid := "p1" }]
            "rock" (some "cited_by_count") "desc").results) :=
  have h : ((recallOriginal distinctIdFetch "rock" (some "cited_by_count") "desc").map (·.id)).Nodup := by
    decide
  ⟨h, recall_merge_dedup distinctIdFetch _ "rock" (some "cited_by_count") "desc" h⟩

/-! ### Claim C5 -/

/-- C5 counterexample: under `sortKey=citation, order=desc` the merged
output of `search_with_recall` is not non-increasing in `cited_by_count`
— the returned sequence has citation counts `[5, 10]`.  No re-sort of the
merged list takes place. -/
theorem recall_not_resorted_counterexample :
    ¬ ((search_with_recall ascendFetch
          [{ subject := "rock", relation := "relates_to", obj := "plate tectonics", paperid := "p1" }]
          "rock" (some "cited_by_count") "desc").results.Pairwise
        (fun x y => intLeB (cite_key y) (cite_key x) = true)) := by
  decide

/-- C5 amended: the requested sort key is forwarded to every upstream query
(so each source arrives individually ordered), but the merged list is never
re-sorted in memory: the output of `search_with_recall` is exactly the
original-keyword block followed by an order-preserving subsequence of the
neighbor-expanded items. -/
theorem recall_forwards_sort_but_never_resorts
    (fetch : FetchFn) (df : List Triple) (keyword : String)
    (sort : Option String) (order : String) :
    (search_with_recall fetch df keyword sort order).results.take
        (recallOriginal fetch keyword sort order).length
      = recallOriginal fetch keyword sort order
    ∧ ((search_with_recall fetch df keyword sort order).results.drop
          (recallOriginal fetch keyword sort order).length).Sublist
        (recallExpanded fetch (find_related_concepts df keyword 3) sort order) := by
  constructor
  · obtain ⟨t, ht⟩ :=
      dedupAppend_extends (recallExpanded fetch (find_related_concepts df keyword 3) sort order)
        ((recallOriginal fetch keyword sort order).map (·.id))
        (recallOriginal fetch keyword sort order)
    show (dedupAppend _ _ _).take _ = _
    rw [← ht]
    exact List.take_left _ _
  · exact dedupAppend_drop_sublist _ _ _

/-! ### Lemmas about the date sort key -/

theorem date_key_of_no_date (reverse : Bool) (x : Item) (h : hasDate x = false) :
    date_key reverse x = (if reverse then "9999" else "0000") := by
  unfold hasDate at h
  unfold date_key
  cases hd : x.publication_date with
  | none => rfl
  | some d =>
    rw [hd] at h
    have h2 : (d != "") = false := h
    simp [h2]

theorem date_key_of_hasDate (reverse : Bool) (x : Item) (h : hasDate x = true) :
    date_key reverse x = dval x := by
  unfold hasDate at h
  unfold date_key dval
  cases hd : x.publication_date with
  | none => rw [hd] at h; simp at h
  | some d =>
    rw [hd] at h
    have h2 : (d != "") = true := h
    simp [h2]

/-! ### Claim C10 -/

/-- C10: in the date comparator, `publication_year` never influences an
key of an item — any item lacking a truthy `publication_date` gets the sentinel
key whatever year it carries (the year is read but discarded) — and, the
sort being stable, all dateless items keep their discovery order among
themselves. -/
theorem date_key_ignores_year (reverse : Bool) (l : List Item) :
    (∀ x : Item, hasDate x = false → ∀ y : Option Int,
      date_key reverse { x with publication_year := y }
        = (if reverse then "9999" else "0000"))
    ∧ (pySortByKey strLeB (date_key reverse) reverse l).filter (fun x => !(hasDate x))
      = l.filter (fun x => !(hasDate x)) := by
  constructor
  · intro x hx y
    have hx2 : hasDate { x with publication_year := y } = false := hx
    exact date_key_of_no_date reverse _ hx2
  · refine filter_insertionSort_of_rel _ (fun x => !(hasDate x)) ?_ l
    intro x y hx hy
    rw [Bool.not_eq_true'] at hx hy
    have kx := date_key_of_no_date reverse x hx
    have ky := date_key_of_no_date reverse y hy
    cases reverse
    · show strLeB (date_key false x) (date_key false y) = true
      rw [kx, ky]
      exact strLeB_refl _
    · show strLeB (date_key true y) (date_key true x) = true
      rw [kx, ky]
      exact strLeB_refl _

/-- Witness for C10 at a concrete input: a dateless item with a year still
gets the sentinel key under any replacement year. -/
theorem date_key_ignores_year_witness :
    hasDate ({ publication_year := some 2001 } : Item) = false
    ∧ date_key true { ({ publication_year := some 2001 } : Item) with publication_year := some 1999 }
        = (if true then "9999" else "0000") :=
  have hx : hasDate ({ publication_year := some 2001 } : Item) = false := by decide
  ⟨hx, (date_key_ignores_year true []).1 _ hx (some 1999)⟩

/-! ### Claim C1 -/

/-- The date sort of the client-side ranker, on any direction: dated items
come out monotone in their date, and — provided real dates lie strictly
between the sentinels — every dateless item precedes every dated item
(the pairwise implication says the dated items form a suffix). -/
theorem pySort_date_head_and_monotone (reverse : Bool) (l : List Item)
    (h : ∀ x ∈ l, hasDate x = true →
        strLtB "0000" (dval x) = true ∧ strLtB (dval x) "9999" = true) :
    (pySortByKey strLeB (date_key reverse) reverse l).Pairwise
      (fun x y => (hasDate x = true → hasDate y = true)
        ∧ (hasDate x = true → hasDate y = true →
            (if reverse then strLeB (dval y) (dval x) else strLeB (dval x) (dval y)) = true)) := by
  have hsorted := pySortByKey_sorted strLeB (date_key reverse) reverse l strLeB_total
    (fun a b c hab hbc => strLeB_trans hab hbc)
  refine List.Pairwise.imp_of_mem ?_ hsorted
  intro a b ha hb hrel
  have ha2 := mem_pySortByKey.1 ha
  have hb2 := mem_pySortByKey.1 hb
  cases reverse
  · have hrel2 : strLeB (date_key false a) (date_key false b) = true := hrel
    constructor
    · intro hda
      by_contra hdb
      rw [Bool.not_eq_true] at hdb
      rw [date_key_of_hasDate false a hda, date_key_of_no_date false b hdb] at hrel2
      exact strLtB_not_leB (h a ha2 hda).1 hrel2
    · intro hda hdb
      rw [date_key_of_hasDate false a hda, date_key_of_hasDate false b hdb] at hrel2
      simpa using hrel2
  · have hrel2 : strLeB (date_key true b) (date_key true a) = true := hrel
    constructor
    · intro hda
      by_contra hdb
      rw [Bool.not_eq_true] at hdb
      rw [date_key_of_hasDate true a hda, date_key_of_no_date true b hdb] at hrel2
      exact strLtB_not_leB (h a ha2 hda).2 hrel2
    · intro hda hdb
      rw [date_key_of_hasDate true a hda, date_key_of_hasDate true b hdb] at hrel2
      simpa using hrel2

/-- C1 counterexample: sorting by date with `order=asc`, an item lacking a
`publication_date` comes out at the head, not at the tail — the returned
page is `[dateless, dated]`, refuting that dateless items sort to the tail
under ascending order. -/
theorem ranked_date_sort_counterexample :
    (rankedSearch "rock" 1 10 "asc" (some "publication_date")
        [[{ publication_date := some "2020-01-01" }, { publication_year := some 1999 }]]).1
      = [{ publication_year := some 1999 }, { publication_date := some "2020-01-01" }]
    ∧ ¬ ((rankedSearch "rock" 1 10 "asc" (some "publication_date")
        [[{ publication_date := some "2020-01-01" }, { publication_year := some 1999 }]]).1.Pairwise
        (fun x y => hasDate x = false → hasDate y = false)) :=
  ⟨by decide, by decide⟩

/-- C1 amended: in the date sort of the client-side ranker the dateless
items go to the head under **both** directions (sentinel `"9999"` is the
largest key, so under descending order dateless items come first; sentinel
`"0000"` is the smallest, so under ascending order they also come first);
the dated items follow, in non-decreasing date order under `asc` and
non-increasing under `desc` — provided every real date lies strictly
between the sentinels, as ISO dates do. -/
theorem ranked_date_sort_dateless_at_head
    (keyword : String) (page size : Nat) (ord : String) (pages : List (List Item))
    (h : ∀ p ∈ pages, ∀ it ∈ p, hasDate it = true →
        strLtB "0000" (dval it) = true ∧ strLtB (dval it) "9999" = true) :
    ((rankedSearch keyword page size ord (some "publication_date") pages).1).Pairwise
      (fun x y => (hasDate x = true → hasDate y = true)
        ∧ (hasDate x = true → hasDate y = true →
            (if ord == "desc" then strLeB (dval y) (dval x)
             else strLeB (dval x) (dval y)) = true)) := by
  have hall : ∀ x ∈ (accumLoop keyword (target_count page size) pages 1 []).1,
      hasDate x = true →
      strLtB "0000" (dval x) = true ∧ strLtB (dval x) "9999" = true := by
    intro x hx hdx
    rcases accumLoop_mem keyword _ pages 1 [] x hx with hc | ⟨p, hp, hxp⟩
    · simp at hc
    · exact h p hp x hxp hdx
  have hsorted := pySort_date_head_and_monotone (ord == "desc") _ hall
  have hbranch : (rankedSearch keyword page size ord (some "publication_date") pages).1
      = ((pySortByKey strLeB (date_key (ord == "desc")) (ord == "desc")
            (accumLoop keyword (target_count page size) pages 1 []).1).drop
          ((page - 1) * size)).take size := rfl
  rw [hbranch]
  exact hsorted.sublist ((List.take_sublist _ _).trans (List.drop_sublist _ _))

/-- Witness for C1 (amended) at a concrete input. -/
theorem ranked_date_sort_dateless_at_head_witness :
    (∀ p ∈ ([[{ publication_date := some "2020-01-01" }, { publication_year := some 1999 }]] :
        List (List Item)), ∀ it ∈ p, hasDate it = true →
        strLtB "0000" (dval it) = true ∧ strLtB (dval it) "9999" = true)
    ∧ ((rankedSearch "rock" 1 10 "asc" (some "publication_date")
        [[{ publication_date := some "2020-01-01" }, { publication_year := some 1999 }]]).1).Pairwise
      (fun x y => (hasDate x = true → hasDate y = true)
        ∧ (hasDate x = true → hasDate y = true →
            (if "asc" == "desc" then strLeB (dval y) (dval x)
             else strLeB (dval x) (dval y)) = true)) :=
  have hp : ∀ p ∈ ([[{ publication_date := some "2020-01-01" }, { publication_year := some 1999 }]] :
      List (List Item)), ∀ it ∈ p, hasDate it = true →
      strLtB "0000" (dval it) = true ∧ strLtB (dval it) "9999" = true := by decide
  ⟨hp, ranked_date_sort_dateless_at_head "rock" 1 10 "asc" _ hp⟩
